import Mathlib

/-!
# Verification of the TyreWise fitment engine

A shallow embedding, in Lean 4, of the size-parsing, geometry, scoring and
result-assembly logic of `src/app/page.tsx` (the "Fitment Engine").

Modelling conventions:

* JavaScript strings are modelled as `List Char` (`Str` below).  The engine
  only uses `trim`, `toUpperCase`, `replaceAll " " ""`, single-character
  `split`, template interpolation, `padStart(2, "0")` and string equality,
  all of which have exact list counterparts.  Character classes are ASCII
  (the engine's inputs and outputs are ASCII).
* JavaScript numbers are modelled as exact rationals (`ℚ`).  Every numeric
  value the engine manipulates is produced from decimal literals and the
  arithmetic in this file, and all checks performed on them (comparisons,
  `String(...)`, `toFixed(2)`) are modelled exactly on `ℚ`.
* `Number(s)` (ECMAScript `ToNumber` on strings) is modelled by `jsNumber`
  on the decimal-literal grammar (optional sign, digits, optional fraction,
  optional exponent, empty/whitespace string gives `0`).  `jsNumber`
  returns `none` exactly when `ToNumber` yields `NaN` (or an infinity), so
  it also folds in the `Number.isFinite` test the source applies right
  after conversion.  Non-decimal numeric notations accepted by JavaScript
  (hex/octal/binary literals, the word `Infinity`) are not modelled; they
  are irrelevant to every claim below because all checks the engine makes
  are on the resulting value, not on the notation.
* `String(n)` (ECMAScript `ToString` of a number) is modelled by
  `jsToString`, exact for every finite number with a terminating decimal
  expansion below the exponent-notation thresholds -- which covers every
  value reachable from `jsNumber` and from the engine's arithmetic.
-/

namespace TyreWise

/-- JavaScript strings, modelled as lists of characters. -/
abbrev Str := List Char

/-- Embed a Lean string literal as a `Str`. -/
def str (s : String) : Str := s.data

/-! ## Character classes (ASCII) -/

/-- ASCII whitespace, the class trimmed by `String.prototype.trim` (restricted
to ASCII: space, tab, line feed, vertical tab, form feed, carriage return). -/
def isWs (c : Char) : Bool := c.toNat = 32 || (9 ≤ c.toNat && c.toNat ≤ 13)

/-- ASCII decimal digit `0`–`9`. -/
def isDigitC (c : Char) : Bool := 48 ≤ c.toNat && c.toNat ≤ 57

/-- Model of `String.prototype.toUpperCase`, per character, restricted to ASCII. -/
def toUpperC (c : Char) : Char :=
  if 97 ≤ c.toNat ∧ c.toNat ≤ 122 then Char.ofNat (c.toNat - 32) else c

/-- Numeric value of a digit character. -/
def digitVal (c : Char) : ℕ := c.toNat - 48

/-- The digit character for `d < 10`. -/
def digitChar (d : ℕ) : Char := Char.ofNat (48 + d)

/-- Model of `String.prototype.trim` (ASCII whitespace). -/
def trimWs (l : Str) : Str := ((l.dropWhile isWs).reverse.dropWhile isWs).reverse

/-! ## Decimal printing of natural numbers -/

/-- Fuel-driven helper for `natToDigits` (structural recursion so that the
kernel can evaluate it). -/
def natToDigitsAux : ℕ → ℕ → Str
  | 0, _ => []
  | f + 1, n => if n < 10 then [digitChar n] else natToDigitsAux f (n / 10) ++ [digitChar (n % 10)]

/-- Decimal digits of a natural number, most significant first. -/
def natToDigits (n : ℕ) : Str := natToDigitsAux (n + 1) n

/-- Left-pad with `'0'` to length `k` (used by `toFixed` and `padStart`). -/
def padZeros (k : ℕ) (l : Str) : Str := List.replicate (k - l.length) '0' ++ l

/-- Model of `String.prototype.padStart(2, "0")`. -/
def padStartTwoZeros (l : Str) : Str := if 2 ≤ l.length then l else padZeros 2 l

/-! ## `String(number)` — ECMAScript `ToString` on finite numbers -/

/-- Fuel-driven multiplicity of `p` in `n` (for `p ≥ 2`). -/
def padicAux (p : ℕ) : ℕ → ℕ → ℕ
  | 0, _ => 0
  | f + 1, n => if 2 ≤ n ∧ n % p = 0 then padicAux p f (n / p) + 1 else 0

/-- Multiplicity of the prime `p` in `n`. -/
def padicVal (p n : ℕ) : ℕ := padicAux p n n

/-- ECMAScript `ToString` of a nonnegative rational.  Exact for integers and for values
with terminating decimal expansion (denominator `2^a * 5^b`) — the only
values the engine ever prints.  (Values with `≥ 21` integer digits or
leading zeroes beyond `10⁻⁶`, which JavaScript prints in exponent notation,
do not arise: every printed value here is below those thresholds.) -/
def jsToStringNN (q : ℚ) : Str :=
  if q.den = 1 then natToDigits q.num.toNat
  else
    let k := max (padicVal 2 q.den) (padicVal 5 q.den)
    let m := q.num.toNat * 10 ^ k / q.den
    natToDigits (m / 10 ^ k) ++ '.' :: padZeros k (natToDigits (m % 10 ^ k))

/-- Model of `String(n)` for a finite number `n`. -/
def jsToString (q : ℚ) : Str := if q < 0 then '-' :: jsToStringNN (-q) else jsToStringNN q

/-- Model of `Number.prototype.toFixed(2)` for a nonnegative value: round
`q * 100` half-away-from-zero-upward (ties to the larger integer, per the
ECMAScript `ToFixed` algorithm) and print with exactly two decimals. -/
def toFixedTwoNN (q : ℚ) : Str :=
  let n : ℕ := (⌊q * 100 + 1 / 2⌋).toNat
  natToDigits (n / 100) ++ '.' :: padZeros 2 (natToDigits (n % 100))

/-- Model of `Number.prototype.toFixed(2)`. -/
def toFixedTwo (q : ℚ) : Str := if q < 0 then '-' :: toFixedTwoNN (-q) else toFixedTwoNN q

/-! ## `Number(string)` — ECMAScript `ToNumber` on decimal literals -/

/-- Digit run to a natural number (most significant digit first). -/
def digitsToNat (l : Str) : ℕ := l.foldl (fun a c => 10 * a + digitVal c) 0

/-- Parse the mandatory digit run of an exponent. -/
def parseExpDigits (l : Str) : Option ℤ :=
  if l ≠ [] ∧ l.all isDigitC then some ((digitsToNat l : ℕ) : ℤ) else none

/-- Parse an exponent body (after `e`/`E`): optional sign, then digits. -/
def parseExp (l : Str) : Option ℤ :=
  match l with
  | [] => none
  | c :: r =>
    if c = '+' then parseExpDigits r
    else if c = '-' then (parseExpDigits r).map Neg.neg
    else parseExpDigits l

/-- Parse an unsigned decimal literal: `digits [. digits] [exp]` or
`[digits] . digits [exp]` (at least one digit overall). -/
def parseDec (l : Str) : Option ℚ :=
  let ip := l.takeWhile isDigitC
  let r1 := l.dropWhile isDigitC
  match r1 with
  | [] => if ip.isEmpty then none else some ((digitsToNat ip : ℕ) : ℚ)
  | c :: r2 =>
    if c = '.' then
      let fp := r2.takeWhile isDigitC
      let r3 := r2.dropWhile isDigitC
      if ip.isEmpty ∧ fp.isEmpty then none
      else
        let mant : ℚ := ((digitsToNat ip : ℕ) : ℚ) + ((digitsToNat fp : ℕ) : ℚ) / 10 ^ fp.length
        match r3 with
        | [] => some mant
        | e :: r4 =>
          if e = 'e' ∨ e = 'E' then (parseExp r4).map (fun ex => mant * (10 : ℚ) ^ ex) else none
    else if c = 'e' ∨ c = 'E' then
      if ip.isEmpty then none
      else (parseExp r2).map (fun ex => ((digitsToNat ip : ℕ) : ℚ) * (10 : ℚ) ^ ex)
    else none

/-- Parse an optionally signed decimal literal. -/
def parseSigned (l : Str) : Option ℚ :=
  match l with
  | [] => none
  | c :: r =>
    if c = '+' then parseDec r
    else if c = '-' then (parseDec r).map Neg.neg
    else parseDec l

/-- Model of `Number(s)` restricted to finite results: ECMAScript trims whitespace,
maps the empty string to `0`, and otherwise reads a signed decimal literal.
`none` stands for `NaN`/infinite results, i.e. exactly the values the
source's `Number.isFinite` check rejects. -/
def jsNumber (l : Str) : Option ℚ :=
  let t := trimWs l
  if t.isEmpty then some 0 else parseSigned t

/-! ## The data model and limits (source lines 10–17) -/

/-- Source line 17: `type Tyre = \x7b widthMm: number; aspect: number; rimIn: number \x7d`. -/
structure Tyre where
  widthMm : ℚ
  aspect : ℚ
  rimIn : ℚ
deriving DecidableEq, Repr

/-- The shape of the `LIMITS` constant. -/
structure Limits where
  diameterPctMax : ℚ
  widthDeltaMaxMm : ℚ
  aspectDeltaMaxForFullPenalty : ℚ
  minScoreShown : ℚ
deriving DecidableEq, Repr

/-- Geometry-only safety limits (source lines 10–15). -/
def LIMITS : Limits := ⟨3.0, 25, 10, 65⟩

/-! ## Parser / formatter (source lines 19–48) -/

/-- Source lines 19–21, `normalise`: trim, upper-case, remove spaces. -/
def normalise (l : Str) : Str := ((trimWs l).map toUpperC).filter (fun c => c ≠ ' ')

/-- Source lines 23–44, `parseTyreSize`. -/
def parseTyreSize (input : Str) : Option Tyre :=
  let s := normalise input
  match s.splitOn 'R' with
  | [left, rimStr] =>
    match left.splitOn '/' with
    | [wStr, aStr] =>
      match jsNumber wStr, jsNumber aStr, jsNumber rimStr with
      | some widthMm, some aspect, some rimIn =>
        if (jsToString widthMm).length ≠ 3 then none
        else if aspect < 10 ∨ aspect > 95 then none
        else if rimIn < 10 ∨ rimIn > 30 then none
        else some ⟨widthMm, aspect, rimIn⟩
      | _, _, _ => none
    | _ => none
  | _ => none

/-- Source lines 46–48, `formatTyreSize`:
`` `${t.widthMm}/${String(t.aspect).padStart(2, "0")} R${t.rimIn}` ``. -/
def formatTyreSize (t : Tyre) : Str :=
  jsToString t.widthMm ++ '/' ::
    (padStartTwoZeros (jsToString t.aspect) ++ ' ' :: 'R' :: jsToString t.rimIn)

/-! ## Geometry (source lines 50–62) -/

/-- Source lines 50–54, `overallDiameterMm`. -/
def overallDiameterMm (t : Tyre) : ℚ :=
  let rimMm := t.rimIn * 25.4
  let sidewallMm := t.widthMm * (t.aspect / 100)
  rimMm + 2 * sidewallMm

/-- Source lines 56–58, `pctDiff`: `Math.abs((b - a) / a) * 100`. -/
def pctDiff (a b : ℚ) : ℚ := |(b - a) / a| * 100

/-- Source lines 60–62, `clamp`: `Math.max(min, Math.min(max, n))`. -/
def clamp (n mn mx : ℚ) : ℚ := max mn (min mx n)

/-- Model of `Math.round`: the nearest integer, ties toward positive infinity
(`⌊x + 1/2⌋` per the ECMAScript specification), as a number. -/
def mathRound (q : ℚ) : ℚ := ((⌊q + 1 / 2⌋ : ℤ) : ℚ)

/-! ## Scoring (source lines 80–111) -/

/-- The strings interpolated into the scoring reasons (source lines 86, 90,
95, 109). -/
def diaGateMsg (p : ℚ) : Str :=
  str "Diameter Δ " ++ toFixedTwo p ++ str "% (limit " ++
    jsToString LIMITS.diameterPctMax ++ str "%)"

/-- Rim-gate rejection reason (source line 90). -/
def rimGateMsg : Str := str "Rim size differs from OEM"

/-- Width-gate rejection reason (source line 95). -/
def widthGateMsg (d : ℚ) : Str :=
  str "Width Δ " ++ jsToString d ++ str "mm (limit ±" ++
    jsToString LIMITS.widthDeltaMaxMm ++ str "mm)"

/-- Scored-candidate diameter reason (source line 109). -/
def diaMsg (p : ℚ) : Str := str "Diameter Δ " ++ toFixedTwo p ++ str "%"

/-- Scored-candidate width reason (source line 109). -/
def widthMsg (d : ℚ) : Str := str "Width Δ " ++ jsToString d ++ str "mm"

/-- Scored-candidate aspect reason (source line 109). -/
def aspectMsg (a : ℚ) : Str := str "Aspect Δ " ++ jsToString a

/-- The result record of `scoreAlternative`. -/
structure ScoredResult where
  safe : Bool
  score : ℚ
  reasons : List Str
deriving DecidableEq, Repr

/-- The weighted score of a gate-passing candidate, as a function of the
three measured deltas (source lines 98–104, the straight-line code of the
final branch of `scoreAlternative`). -/
def scoreFormula (diaDiffPct widthDelta aspectDelta : ℚ) : ℚ :=
  let diaPenalty := clamp (diaDiffPct / LIMITS.diameterPctMax * 55) 0 55
  let widthPenalty := clamp (widthDelta / LIMITS.widthDeltaMaxMm * 25) 0 25
  let aspectPenalty := clamp (aspectDelta / LIMITS.aspectDeltaMaxForFullPenalty * 20) 0 20
  clamp (mathRound (100 - (diaPenalty + widthPenalty + aspectPenalty))) 0 100

/-- Source lines 80–111, `scoreAlternative`. -/
def scoreAlternative (oem alt : Tyre) : ScoredResult :=
  let oemDia := overallDiameterMm oem
  let altDia := overallDiameterMm alt
  let diaDiffPct := pctDiff oemDia altDia
  if diaDiffPct > LIMITS.diameterPctMax then
    ⟨false, 0, [diaGateMsg diaDiffPct]⟩
  else if alt.rimIn ≠ oem.rimIn then
    ⟨false, 0, [rimGateMsg]⟩
  else
    let widthDelta := |alt.widthMm - oem.widthMm|
    if widthDelta > LIMITS.widthDeltaMaxMm then
      ⟨false, 0, [widthGateMsg widthDelta]⟩
    else
      let aspectDelta := |alt.aspect - oem.aspect|
      ⟨true, scoreFormula diaDiffPct widthDelta aspectDelta,
        [diaMsg diaDiffPct, widthMsg widthDelta, aspectMsg aspectDelta]⟩

/-! ## Retailer links (source lines 64–78; presentation glue, kept because
the result records of `runSearch` contain them) -/

/-- Source lines 64–68, `sizeToSlug`. -/
def sizeToSlug (size : Str) : Option Str :=
  (parseTyreSize size).map (fun t =>
    jsToString t.widthMm ++ '-' ::
      (padStartTwoZeros (jsToString t.aspect) ++ '-' :: jsToString t.rimIn))

/-- Source lines 70–78, `retailerLinksForSize`. -/
def retailerLinksForSize (size : Str) : Option Str × Option Str :=
  match sizeToSlug size with
  | none => (none, none)
  | some slug =>
    (some (str "https://www.blackcircles.com/tyres/" ++ slug),
     some (str "https://www.national.co.uk/tyres-search/" ++ slug))

/-! ## Result assembly — the pure pipeline of `runSearch`
(source lines 200–242), staged to mirror the source's chain of
`map`/`filter`/`sort`.  The intermediate `ScoredAlt` records additionally
carry the candidate `Tyre` they were built from (the source closure has it
as `x.t`); the final `toAltOut` projection drops it together with `safe`,
matching `.map(({ safe, ...rest }) => rest)`. -/

/-- The demo OEM size string (source line 7). -/
def OEM_TYRE : Str := str "265/30 R20"

/-- Width offsets for candidate generation (source line 207). -/
def genWidths : List ℚ := [-20, -10, 10, 20]

/-- Aspect offsets for candidate generation (source line 208). -/
def genAspects : List ℚ := [-5, 5]

/-- Candidate generation (source lines 210–216): width offsets, aspect
offsets, then the two width+aspect combinations, in push order. -/
def genCandidates (oem : Tyre) : List Tyre :=
  (genWidths.map fun dw => { oem with widthMm := oem.widthMm + dw }) ++
  (genAspects.map fun da => { oem with aspect := oem.aspect + da }) ++
  [{ oem with widthMm := oem.widthMm - 10, aspect := oem.aspect - 5 },
   { oem with widthMm := oem.widthMm + 10, aspect := oem.aspect - 5 }]

/-- The `seen`-set deduplication (source lines 218–226): keep the first
occurrence of each formatted size. -/
def dedupBySize : List Str → List (Tyre × Str) → List (Tyre × Str)
  | _, [] => []
  | seen, x :: xs =>
    if x.2 ∈ seen then dedupBySize seen xs else x :: dedupBySize (x.2 :: seen) xs

/-- Source line 220: `.map((t) => (\x7b t, size: formatTyreSize(t) \x7d))`. -/
def candidatePairs (oem : Tyre) : List (Tyre × Str) :=
  (genCandidates oem).map fun t => (t, formatTyreSize t)

/-- Source lines 221–226: `.filter((x) => x.size !== OEM_TYRE)` then dedup. -/
def dedupedPairs (oem : Tyre) : List (Tyre × Str) :=
  dedupBySize [] ((candidatePairs oem).filter fun x => x.2 ≠ OEM_TYRE)

/-- A scored candidate inside the pipeline (source lines 227–236), with the
originating tyre kept for specification purposes. -/
structure ScoredAlt where
  t : Tyre
  size : Str
  safe : Bool
  score : ℚ
  reasons : List Str
  links : Option Str × Option Str
deriving DecidableEq, Repr

/-- Scoring map of the pipeline (source lines 227–236). -/
def scoredAlts (oem : Tyre) : List ScoredAlt :=
  (dedupedPairs oem).map fun x =>
    let s := scoreAlternative oem x.1
    ⟨x.1, x.2, s.safe, s.score, s.reasons, retailerLinksForSize x.2⟩

/-- Source line 237: `.filter((x) => x.safe && x.score >= LIMITS.minScoreShown)`. -/
def keptAlts (oem : Tyre) : List ScoredAlt :=
  (scoredAlts oem).filter fun x => x.safe && decide (LIMITS.minScoreShown ≤ x.score)

/-- The comparator order of `.sort((a, b) => b.score - a.score)`
(source line 238): `a` may precede `b` iff the comparator is `≤ 0`. -/
def sortRel (a b : ScoredAlt) : Prop := b.score ≤ a.score

instance : DecidableRel sortRel := fun a b => inferInstanceAs (Decidable (b.score ≤ a.score))

instance : IsTotal ScoredAlt sortRel := ⟨fun a b => le_total b.score a.score⟩

instance : IsTrans ScoredAlt sortRel := ⟨fun _ _ _ h h' => le_trans h' h⟩

/-- The sort (source line 238).  `Array.prototype.sort` is stable
(ECMAScript 2019), and a stable sort with this comparator produces the
unique score-descending, tie-order-preserving permutation — modelled by
insertion sort with ties inserted before equals from later in the list. -/
def sortedAlts (oem : Tyre) : List ScoredAlt :=
  List.insertionSort sortRel (keptAlts oem)

/-- The record shape actually returned (source lines 181–183, 239). -/
structure AltOut where
  size : Str
  score : ℚ
  reasons : List Str
  links : Option Str × Option Str
deriving DecidableEq, Repr, Inhabited

/-- Source line 239: `.map((\x7b safe, ...rest \x7d) => rest)`, also dropping the
ghost tyre. -/
def toAltOut (x : ScoredAlt) : AltOut := ⟨x.size, x.score, x.reasons, x.links⟩

/-- The alternatives list computed by `runSearch` for a parsed OEM size
(source lines 206–242). -/
def runSearchAlts (oem : Tyre) : List AltOut := (sortedAlts oem).map toAltOut

/-- The full demo search (source lines 200–242): parse the fixed OEM size,
fail with no candidates if it does not parse, otherwise run the pipeline. -/
def runSearchDemo : Option (List AltOut) := (parseTyreSize OEM_TYRE).map runSearchAlts

end TyreWise

namespace TyreWise

unseal Rat.add Rat.mul Rat.inv Rat.sub Rat.ofScientific

/-! ## Helper lemmas about the limits and the score arithmetic -/

theorem LIMITS_dia : LIMITS.diameterPctMax = 3 := by norm_num [LIMITS]

theorem LIMITS_width : LIMITS.widthDeltaMaxMm = 25 := rfl

theorem clamp_le_clamp {a b mn mx : ℚ} (h : a ≤ b) : clamp a mn mx ≤ clamp b mn mx :=
  max_le_max le_rfl (min_le_min le_rfl h)

theorem mathRound_mono {a b : ℚ} (h : a ≤ b) : mathRound a ≤ mathRound b := by
  unfold mathRound
  exact_mod_cast Int.floor_le_floor (by linarith)

theorem scoreFormula_anti₁ {d d' : ℚ} (w a : ℚ) (h : d ≤ d') :
    scoreFormula d' w a ≤ scoreFormula d w a := by
  unfold scoreFormula
  refine clamp_le_clamp (mathRound_mono ?_)
  have h1 : clamp (d / LIMITS.diameterPctMax * 55) 0 55 ≤
      clamp (d' / LIMITS.diameterPctMax * 55) 0 55 :=
    clamp_le_clamp (by rw [LIMITS_dia]; linarith)
  linarith

theorem scoreFormula_anti₂ (d : ℚ) {w w' : ℚ} (a : ℚ) (h : w ≤ w') :
    scoreFormula d w' a ≤ scoreFormula d w a := by
  unfold scoreFormula
  refine clamp_le_clamp (mathRound_mono ?_)
  have h1 : clamp (w / LIMITS.widthDeltaMaxMm * 25) 0 25 ≤
      clamp (w' / LIMITS.widthDeltaMaxMm * 25) 0 25 :=
    clamp_le_clamp (by rw [LIMITS_width]; linarith)
  linarith

theorem scoreFormula_anti₃ (d w : ℚ) {a a' : ℚ} (h : a ≤ a') :
    scoreFormula d w a' ≤ scoreFormula d w a := by
  unfold scoreFormula
  refine clamp_le_clamp (mathRound_mono ?_)
  have h1 : clamp (a / LIMITS.aspectDeltaMaxForFullPenalty * 20) 0 20 ≤
      clamp (a' / LIMITS.aspectDeltaMaxForFullPenalty * 20) 0 20 :=
    clamp_le_clamp (by show a / 10 * 20 ≤ a' / 10 * 20; linarith)
  linarith

/-- When all three gates pass, `scoreAlternative` is safe with the weighted
score of the measured deltas; each rejecting branch is `safe = false`. -/
theorem safe_gates (oem alt : Tyre) (h : (scoreAlternative oem alt).safe = true) :
    pctDiff (overallDiameterMm oem) (overallDiameterMm alt) ≤ LIMITS.diameterPctMax
    ∧ alt.rimIn = oem.rimIn
    ∧ |alt.widthMm - oem.widthMm| ≤ LIMITS.widthDeltaMaxMm := by
  by_cases h1 : pctDiff (overallDiameterMm oem) (overallDiameterMm alt) > LIMITS.diameterPctMax
  · simp [scoreAlternative, h1] at h
  · by_cases h2 : alt.rimIn ≠ oem.rimIn
    · simp [scoreAlternative, h1, h2] at h
    · by_cases h3 : |alt.widthMm - oem.widthMm| > LIMITS.widthDeltaMaxMm
      · simp [scoreAlternative, h1, h2, h3] at h
      · exact ⟨not_lt.mp h1, not_ne_iff.mp h2, not_lt.mp h3⟩

theorem score_eq_formula (oem alt : Tyre) (h : (scoreAlternative oem alt).safe = true) :
    (scoreAlternative oem alt).score =
      scoreFormula (pctDiff (overallDiameterMm oem) (overallDiameterMm alt))
        |alt.widthMm - oem.widthMm| |alt.aspect - oem.aspect| := by
  by_cases h1 : pctDiff (overallDiameterMm oem) (overallDiameterMm alt) > LIMITS.diameterPctMax
  · simp [scoreAlternative, h1] at h
  · by_cases h2 : alt.rimIn ≠ oem.rimIn
    · simp [scoreAlternative, h1, h2] at h
    · by_cases h3 : |alt.widthMm - oem.widthMm| > LIMITS.widthDeltaMaxMm
      · simp [scoreAlternative, h1, h2, h3] at h
      · simp [scoreAlternative, h1, h2, h3]

/-! ## Helper lemmas about digit characters and digit strings -/

theorem digit_facts {c : Char} (h : isDigitC c = true) :
    isWs c = false ∧ toUpperC c = c ∧ c ≠ ' ' ∧ c ≠ 'R' ∧ c ≠ '/' ∧ c ≠ '+' ∧ c ≠ '-' := by
  simp only [isDigitC, Bool.and_eq_true, decide_eq_true_eq] at h
  refine ⟨?_, ?_, ?_, ?_, ?_, ?_, ?_⟩
  · simp only [isWs, Bool.or_eq_false_iff, Bool.and_eq_false_iff, decide_eq_false_iff_not]
    omega
  · simp only [toUpperC]
    rw [if_neg (by omega)]
  · rintro rfl; simp at h
  · rintro rfl; simp at h
  · rintro rfl; simp at h
  · rintro rfl; simp at h
  · rintro rfl; simp at h

theorem isDigitC_digitChar {d : ℕ} (h : d < 10) : isDigitC (digitChar d) = true := by
  interval_cases d <;> decide

theorem digitVal_digitChar {d : ℕ} (h : d < 10) : digitVal (digitChar d) = d := by
  interval_cases d <;> decide

theorem natToDigitsAux_congr : ∀ (f g n : ℕ), n < f → n < g →
    natToDigitsAux f n = natToDigitsAux g n := by
  intro f
  induction f with
  | zero => intro g n h; omega
  | succ f ih =>
    intro g n hf hg
    cases g with
    | zero => omega
    | succ g =>
      simp only [natToDigitsAux]
      by_cases h10 : n < 10
      · simp [h10]
      · rw [if_neg h10, if_neg h10, ih g (n / 10) (by omega) (by omega)]

theorem natToDigits_eq (n : ℕ) :
    natToDigits n = if n < 10 then [digitChar n]
      else natToDigits (n / 10) ++ [digitChar (n % 10)] := by
  show natToDigitsAux (n + 1) n = _
  simp only [natToDigitsAux]
  by_cases h10 : n < 10
  · simp [h10]
  · rw [if_neg h10, if_neg h10,
      natToDigitsAux_congr n (n / 10 + 1) (n / 10) (by omega) (by omega)]
    rfl

theorem natToDigits_ne_nil (n : ℕ) : natToDigits n ≠ [] := by
  rw [natToDigits_eq]
  split <;> simp

theorem natToDigits_all_digit (n : ℕ) : ∀ c ∈ natToDigits n, isDigitC c = true := by
  induction n using Nat.strong_induction_on with
  | _ n ih =>
    rw [natToDigits_eq]
    by_cases h10 : n < 10
    · simp only [if_pos h10, List.mem_singleton]
      rintro c rfl
      exact isDigitC_digitChar h10
    · simp only [if_neg h10, List.mem_append, List.mem_singleton]
      rintro c (hc | rfl)
      · exact ih (n / 10) (by omega) c hc
      · exact isDigitC_digitChar (by omega)

theorem digitsToNat_concat (l : Str) (c : Char) :
    digitsToNat (l ++ [c]) = 10 * digitsToNat l + digitVal c := by
  simp [digitsToNat, List.foldl_append]

theorem digitsToNat_natToDigits (n : ℕ) : digitsToNat (natToDigits n) = n := by
  induction n using Nat.strong_induction_on with
  | _ n ih =>
    rw [natToDigits_eq]
    by_cases h10 : n < 10
    · simp only [if_pos h10]
      show 10 * 0 + digitVal (digitChar n) = n
      rw [digitVal_digitChar h10]
      omega
    · rw [if_neg h10, digitsToNat_concat, ih (n / 10) (by omega),
        digitVal_digitChar (by omega)]
      omega

theorem length_natToDigits_two {a : ℕ} (h1 : 10 ≤ a) (h2 : a ≤ 99) :
    (natToDigits a).length = 2 := by
  rw [natToDigits_eq, if_neg (by omega), List.length_append, natToDigits_eq,
    if_pos (by omega : a / 10 < 10)]
  rfl

theorem length_natToDigits_three {w : ℕ} (h1 : 100 ≤ w) (h2 : w ≤ 999) :
    (natToDigits w).length = 3 := by
  rw [natToDigits_eq, if_neg (by omega), List.length_append,
    length_natToDigits_two (by omega) (by omega)]
  rfl

theorem takeWhile_all {p : Char → Bool} : ∀ {l : Str}, (∀ c ∈ l, p c = true) →
    l.takeWhile p = l := by
  intro l
  induction l with
  | nil => intro _; rfl
  | cons c r ih =>
    intro h
    rw [List.takeWhile_cons, if_pos (h c (by simp)), ih (fun x hx => h x (by simp [hx]))]

theorem dropWhile_all {p : Char → Bool} : ∀ {l : Str}, (∀ c ∈ l, p c = true) →
    l.dropWhile p = [] := by
  intro l
  induction l with
  | nil => intro _; rfl
  | cons c r ih =>
    intro h
    rw [List.dropWhile_cons, if_pos (h c (by simp))]
    exact ih (fun x hx => h x (by simp [hx]))

theorem dropWhile_none {p : Char → Bool} : ∀ {l : Str}, (∀ c ∈ l, p c = false) →
    l.dropWhile p = l := by
  intro l
  cases l with
  | nil => intro _; rfl
  | cons c r => intro h; rw [List.dropWhile_cons, if_neg (by simp [h c (by simp)])]

theorem trimWs_eq_self_all {l : Str} (h : ∀ c ∈ l, isWs c = false) : trimWs l = l := by
  unfold trimWs
  rw [dropWhile_none h, dropWhile_none (fun c hc => h c (List.mem_reverse.mp hc)),
    List.reverse_reverse]

theorem trimWs_cons_concat (c₁ c₂ : Char) (m : Str) (h1 : isWs c₁ = false)
    (h2 : isWs c₂ = false) : trimWs (c₁ :: (m ++ [c₂])) = c₁ :: (m ++ [c₂]) := by
  unfold trimWs
  rw [List.dropWhile_cons, if_neg (by simp [h1])]
  have hrev : (c₁ :: (m ++ [c₂])).reverse = c₂ :: (m.reverse ++ [c₁]) := by
    simp
  rw [hrev, List.dropWhile_cons, if_neg (by simp [h2]), ← hrev, List.reverse_reverse]

theorem map_id_of_mem {f : Char → Char} : ∀ {l : Str}, (∀ c ∈ l, f c = c) → l.map f = l := by
  intro l
  induction l with
  | nil => intro _; rfl
  | cons c r ih =>
    intro h
    rw [List.map_cons, h c (by simp), ih (fun x hx => h x (by simp [hx]))]

/-! ## `jsNumber` and `jsToString` on digit strings -/

theorem jsNumber_digits {l : Str} (h1 : l ≠ []) (h2 : ∀ c ∈ l, isDigitC c = true) :
    jsNumber l = some ((digitsToNat l : ℕ) : ℚ) := by
  have hws : ∀ c ∈ l, isWs c = false := fun c hc => (digit_facts (h2 c hc)).1
  have htrim : trimWs l = l := trimWs_eq_self_all hws
  obtain ⟨c, r, rfl⟩ : ∃ c r, l = c :: r := by
    cases l with
    | nil => exact absurd rfl h1
    | cons c r => exact ⟨c, r, rfl⟩
  have hc := digit_facts (h2 c (by simp))
  simp only [jsNumber, htrim, List.isEmpty_cons, parseSigned]
  rw [if_neg (by simp), if_neg hc.2.2.2.2.2.1, if_neg hc.2.2.2.2.2.2]
  simp only [parseDec, takeWhile_all h2, dropWhile_all h2]
  rw [if_neg (by simp)]

theorem jsNumber_natToDigits (n : ℕ) : jsNumber (natToDigits n) = some ((n : ℕ) : ℚ) := by
  rw [jsNumber_digits (natToDigits_ne_nil n) (natToDigits_all_digit n), digitsToNat_natToDigits]

theorem jsToString_natCast (n : ℕ) : jsToString ((n : ℕ) : ℚ) = natToDigits n := by
  simp only [jsToString, jsToStringNN]
  rw [if_neg (not_lt.mpr (by exact_mod_cast Nat.zero_le n)), if_pos (by simp)]
  simp

theorem splitOn_sandwich {x : Char} {A B : Str} (hA : x ∉ A) (hB : x ∉ B) :
    (A ++ x :: B).splitOn x = [A, B] := by
  simp only [List.splitOn]
  rw [List.splitOnP_first _ A (fun y hy => by simp; rintro rfl; exact hA hy) x (by simp) B,
    List.splitOnP_eq_single _ _ (fun y hy => by simp; rintro rfl; exact hB hy)]

theorem not_mem_digits {x : Char} (n : ℕ) (hx : isDigitC x = false) : x ∉ natToDigits n := by
  intro hmem
  rw [natToDigits_all_digit n x hmem] at hx
  exact Bool.noConfusion hx

theorem notR_of_digits {l : Str} (hd : ∀ c ∈ l, isDigitC c = true) : 'R' ∉ l := by
  intro hmem
  have := hd 'R' hmem
  simp [isDigitC] at this

theorem notSlash_of_digits {l : Str} (hd : ∀ c ∈ l, isDigitC c = true) : '/' ∉ l := by
  intro hmem
  have := hd '/' hmem
  simp [isDigitC] at this

theorem padStart_natToDigits {a : ℕ} (h1 : 10 ≤ a) (h2 : a ≤ 99) :
    padStartTwoZeros (natToDigits a) = natToDigits a := by
  simp only [padStartTwoZeros]
  rw [if_pos (by rw [length_natToDigits_two h1 h2])]

theorem normalise_format {w a r : ℕ} (ha1 : 10 ≤ a) (ha2 : a ≤ 95) :
    normalise (formatTyreSize ⟨(w : ℚ), (a : ℚ), (r : ℚ)⟩) =
      natToDigits w ++ '/' :: (natToDigits a ++ 'R' :: natToDigits r) := by
  have hfmt : formatTyreSize ⟨(w : ℚ), (a : ℚ), (r : ℚ)⟩ =
      natToDigits w ++ '/' :: (natToDigits a ++ ' ' :: 'R' :: natToDigits r) := by
    simp only [formatTyreSize, jsToString_natCast]
    rw [padStart_natToDigits ha1 (by omega)]
  have hWdig := natToDigits_all_digit w
  have hAdig := natToDigits_all_digit a
  have hRdig := natToDigits_all_digit r
  obtain ⟨c1, tw, hcw⟩ : ∃ c1 tw, natToDigits w = c1 :: tw := by
    cases hx : natToDigits w with
    | nil => exact absurd hx (natToDigits_ne_nil w)
    | cons c1 tw => exact ⟨c1, tw, rfl⟩
  obtain hnil | ⟨m, c2, hcr⟩ := (natToDigits r).eq_nil_or_concat
  · exact absurd hnil (natToDigits_ne_nil r)
  have hshape : natToDigits w ++ '/' :: (natToDigits a ++ ' ' :: 'R' :: natToDigits r) =
      c1 :: ((tw ++ '/' :: (natToDigits a ++ ' ' :: 'R' :: m)) ++ [c2]) := by
    rw [hcw, hcr]; simp
  have hc1 : isWs c1 = false :=
    (digit_facts (hWdig c1 (by rw [hcw]; exact List.mem_cons_self c1 tw))).1
  have hc2 : isWs c2 = false :=
    (digit_facts (hRdig c2 (by rw [hcr]; simp))).1
  have htrim : trimWs (formatTyreSize ⟨(w : ℚ), (a : ℚ), (r : ℚ)⟩) =
      natToDigits w ++ '/' :: (natToDigits a ++ ' ' :: 'R' :: natToDigits r) := by
    rw [hfmt, hshape, trimWs_cons_concat c1 c2 _ hc1 hc2, ← hshape]
  have hupper : ∀ c ∈ natToDigits w ++ '/' :: (natToDigits a ++ ' ' :: 'R' :: natToDigits r),
      toUpperC c = c := by
    intro c hc
    simp only [List.mem_append, List.mem_cons] at hc
    rcases hc with hc | rfl | hc | rfl | rfl | hc
    · exact (digit_facts (hWdig c hc)).2.1
    · decide
    · exact (digit_facts (hAdig c hc)).2.1
    · decide
    · decide
    · exact (digit_facts (hRdig c hc)).2.1
  have hfiltW : (natToDigits w).filter (fun c => decide (c ≠ ' ')) = natToDigits w :=
    List.filter_eq_self.mpr (fun c hc => decide_eq_true (digit_facts (hWdig c hc)).2.2.1)
  have hfiltA : (natToDigits a).filter (fun c => decide (c ≠ ' ')) = natToDigits a :=
    List.filter_eq_self.mpr (fun c hc => decide_eq_true (digit_facts (hAdig c hc)).2.2.1)
  have hfiltR : (natToDigits r).filter (fun c => decide (c ≠ ' ')) = natToDigits r :=
    List.filter_eq_self.mpr (fun c hc => decide_eq_true (digit_facts (hRdig c hc)).2.2.1)
  simp only [normalise, htrim, map_id_of_mem hupper, List.filter_append, List.filter_cons,
    hfiltW, hfiltA, hfiltR]
  rw [if_pos (by decide), if_neg (by decide), if_pos (by decide)]

theorem cast_bounds_aspect {a : ℕ} (ha1 : 10 ≤ a) (ha2 : a ≤ 95) :
    ¬(((a : ℕ) : ℚ) < 10 ∨ ((a : ℕ) : ℚ) > 95) := by
  push_neg
  constructor
  · exact_mod_cast ha1
  · exact_mod_cast ha2

theorem cast_bounds_rim {r : ℕ} (hr1 : 10 ≤ r) (hr2 : r ≤ 30) :
    ¬(((r : ℕ) : ℚ) < 10 ∨ ((r : ℕ) : ℚ) > 30) := by
  push_neg
  constructor
  · exact_mod_cast hr1
  · exact_mod_cast hr2


/-! ## Helper lemmas for the result-assembly pipeline -/

theorem dedupBySize_subset : ∀ (seen : List Str) (l : List (Tyre × Str)),
    ∀ x ∈ dedupBySize seen l, x ∈ l := by
  intro seen l
  induction l generalizing seen with
  | nil => intro x hx; exact absurd hx (by simp [dedupBySize])
  | cons y ys ih =>
    intro x hx
    simp only [dedupBySize] at hx
    by_cases hmem : y.2 ∈ seen
    · rw [if_pos hmem] at hx
      exact List.mem_cons_of_mem y (ih seen x hx)
    · rw [if_neg hmem] at hx
      rcases List.mem_cons.mp hx with rfl | hx
      · exact List.mem_cons_self x ys
      · exact List.mem_cons_of_mem y (ih (y.2 :: seen) x hx)

theorem mem_dedupedPairs_struct (oem : Tyre) (x : Tyre × Str) (hx : x ∈ dedupedPairs oem) :
    x.2 = formatTyreSize x.1 ∧ x.1 ∈ genCandidates oem := by
  have h1 : x ∈ (candidatePairs oem).filter (fun y => decide (y.2 ≠ OEM_TYRE)) :=
    dedupBySize_subset _ _ x hx
  have h2 : x ∈ candidatePairs oem := List.mem_of_mem_filter h1
  simp only [candidatePairs, List.mem_map] at h2
  obtain ⟨t, ht, rfl⟩ := h2
  exact ⟨rfl, ht⟩

theorem mem_scoredAlts_struct (oem : Tyre) (y : ScoredAlt) (hy : y ∈ scoredAlts oem) :
    y.size = formatTyreSize y.t ∧ y.safe = (scoreAlternative oem y.t).safe
    ∧ y.score = (scoreAlternative oem y.t).score ∧ y.t ∈ genCandidates oem := by
  simp only [scoredAlts, List.mem_map] at hy
  obtain ⟨x, hx, rfl⟩ := hy
  obtain ⟨hfmt, hgen⟩ := mem_dedupedPairs_struct oem x hx
  exact ⟨hfmt, rfl, rfl, hgen⟩

theorem mem_runSearchAlts_struct (oem : Tyre) (e : AltOut) (he : e ∈ runSearchAlts oem) :
    ∃ y : ScoredAlt, y ∈ scoredAlts oem ∧ y.safe = true ∧ LIMITS.minScoreShown ≤ y.score
      ∧ e = toAltOut y := by
  simp only [runSearchAlts, List.mem_map] at he
  obtain ⟨y, hy, rfl⟩ := he
  have hy2 : y ∈ keptAlts oem := by
    have := List.perm_insertionSort sortRel (keptAlts oem)
    exact this.mem_iff.mp hy
  simp only [keptAlts, List.mem_filter, Bool.and_eq_true, decide_eq_true_eq] at hy2
  exact ⟨y, hy2.1, hy2.2.1, hy2.2.2, rfl⟩

/-- Stability of `orderedInsert` for the score comparator: filtering any
score class commutes with the insertion. -/
theorem filter_score_orderedInsert (s : ℚ) (x : ScoredAlt) : ∀ l : List ScoredAlt,
    (List.orderedInsert sortRel x l).filter (fun y => decide (y.score = s)) =
      ((x :: l).filter (fun y => decide (y.score = s))) := by
  intro l
  induction l with
  | nil => rfl
  | cons b l ih =>
    by_cases hr : sortRel x b
    · simp only [List.orderedInsert, if_pos hr]
    · simp only [List.orderedInsert, if_neg hr]
      have hxb : x.score < b.score := lt_of_not_le hr
      by_cases hbs : b.score = s
      · have hxs : ¬ x.score = s := by
          intro hxs
          rw [hxs, hbs] at hxb
          exact lt_irrefl s hxb
        simp only [List.filter_cons, ih]
        simp [hbs, hxs]
      · by_cases hxs : x.score = s
        · simp only [List.filter_cons, ih]
          simp [hbs, hxs]
        · simp only [List.filter_cons, ih]
          simp [hbs, hxs]

/-- Stability of the modelled sort: the entries of any one score class come
out of the sort in their original order. -/
theorem filter_score_insertionSort (s : ℚ) : ∀ l : List ScoredAlt,
    (List.insertionSort sortRel l).filter (fun y => decide (y.score = s)) =
      l.filter (fun y => decide (y.score = s)) := by
  intro l
  induction l with
  | nil => rfl
  | cons x l ih =>
    rw [List.insertionSort, filter_score_orderedInsert s x (List.insertionSort sortRel l)]
    simp only [List.filter_cons, ih]

/-! ## The claims -/

/-- C1: for every well-formed `TyreSize` `t` — integer width with exactly
three decimal digits (`100 ≤ w ≤ 999`), integer aspect in `[10, 95]`,
integer rim in `[10, 30]` (the fields are integers by the data model) —
parsing the formatted string yields `t` back: `parse (format t) = some t`. -/
theorem C1_parse_format_roundtrip (t : Tyre) (w a r : ℕ)
    (hw : t.widthMm = (w : ℚ)) (hw1 : 100 ≤ w) (hw2 : w ≤ 999)
    (ha : t.aspect = (a : ℚ)) (ha1 : 10 ≤ a) (ha2 : a ≤ 95)
    (hr : t.rimIn = (r : ℚ)) (hr1 : 10 ≤ r) (hr2 : r ≤ 30) :
    parseTyreSize (formatTyreSize t) = some t := by
  obtain ⟨tw, ta, tr⟩ := t
  simp only at hw ha hr
  subst hw ha hr
  have hsplit1 : (natToDigits w ++ '/' :: (natToDigits a ++ 'R' :: natToDigits r)).splitOn 'R'
      = [natToDigits w ++ '/' :: natToDigits a, natToDigits r] := by
    have hassoc : natToDigits w ++ '/' :: (natToDigits a ++ 'R' :: natToDigits r)
        = (natToDigits w ++ '/' :: natToDigits a) ++ 'R' :: natToDigits r := by simp
    rw [hassoc]
    refine splitOn_sandwich ?_ (not_mem_digits r (by decide))
    simp only [List.mem_append, List.mem_cons, not_or]
    exact ⟨not_mem_digits w (by decide), by decide, not_mem_digits a (by decide)⟩
  have hsplit2 : (natToDigits w ++ '/' :: natToDigits a).splitOn '/'
      = [natToDigits w, natToDigits a] :=
    splitOn_sandwich (not_mem_digits w (by decide)) (not_mem_digits a (by decide))
  simp only [parseTyreSize, normalise_format ha1 ha2, hsplit1, hsplit2,
    jsNumber_natToDigits, jsToString_natCast]
  rw [if_neg (by rw [length_natToDigits_three hw1 hw2]; omega),
    if_neg (cast_bounds_aspect ha1 ha2), if_neg (cast_bounds_rim hr1 hr2)]

/-- Witness for C1 at the demo size `265/30 R20`. -/
theorem C1_parse_format_roundtrip_witness :
    ((⟨265, 30, 20⟩ : Tyre).widthMm = ((265 : ℕ) : ℚ) ∧ 100 ≤ 265 ∧ 265 ≤ 999)
    ∧ parseTyreSize (formatTyreSize ⟨265, 30, 20⟩) = some ⟨265, 30, 20⟩ :=
  ⟨⟨by norm_num, by norm_num, by norm_num⟩,
   C1_parse_format_roundtrip ⟨265, 30, 20⟩ 265 30 20 (by norm_num) (by norm_num) (by norm_num)
     (by norm_num) (by norm_num) (by norm_num) (by norm_num) (by norm_num) (by norm_num)⟩

/-- C2 (counterexample): the string `"-50/30R20"` parses successfully to a
`TyreSize` whose width `-50` is *not* an integer with exactly three decimal
digits — the `String(widthMm).length === 3` check also accepts a sign, so the
claim "parse succeeds only if the parsed width has exactly three decimal
digits" is false on the code. -/
theorem C2_three_digit_counterexample :
    parseTyreSize (str "-50/30R20") = some ⟨-50, 30, 20⟩
    ∧ ¬ ∃ n : ℕ, ((-50 : ℚ) = (n : ℚ) ∧ 100 ≤ n ∧ n ≤ 999) := by
  refine ⟨by decide, ?_⟩
  rintro ⟨n, hn, -, -⟩
  have h0 : (0 : ℚ) ≤ (n : ℚ) := Nat.cast_nonneg n
  rw [← hn] at h0
  norm_num at h0

/-- C2 (amended): parse succeeds only if the parsed width's JavaScript string
rendering has exactly three characters (not necessarily three digits — a sign
or a decimal point can be among them), the aspect lies in `[10, 95]`, and the
rim lies in `[10, 30]`; any violation yields a parse failure. -/
theorem C2_parse_bounds_amended (l : Str) (t : Tyre) (h : parseTyreSize l = some t) :
    (jsToString t.widthMm).length = 3
    ∧ 10 ≤ t.aspect ∧ t.aspect ≤ 95 ∧ 10 ≤ t.rimIn ∧ t.rimIn ≤ 30 := by
  simp only [parseTyreSize] at h
  split at h
  case _ left rimStr _ =>
    split at h
    case _ wStr aStr _ =>
      split at h
      case _ widthMm aspect rimIn _ _ _ =>
        split_ifs at h with e1 e2 e3
        obtain rfl : Tyre.mk widthMm aspect rimIn = t := Option.some.inj h
        push_neg at e1 e2 e3
        exact ⟨e1, e2.1, e2.2, e3.1, e3.2⟩
      case _ => exact absurd h (by simp)
    case _ => exact absurd h (by simp)
  case _ => exact absurd h (by simp)

/-- Witness for the amended C2 at the demo size string. -/
theorem C2_parse_bounds_amended_witness :
    parseTyreSize (str "265/30 R20") = some ⟨265, 30, 20⟩
    ∧ ((jsToString (⟨265, 30, 20⟩ : Tyre).widthMm).length = 3
      ∧ 10 ≤ (⟨265, 30, 20⟩ : Tyre).aspect ∧ (⟨265, 30, 20⟩ : Tyre).aspect ≤ 95
      ∧ 10 ≤ (⟨265, 30, 20⟩ : Tyre).rimIn ∧ (⟨265, 30, 20⟩ : Tyre).rimIn ≤ 30) :=
  ⟨by decide, C2_parse_bounds_amended (str "265/30 R20") ⟨265, 30, 20⟩ (by decide)⟩

/-- C3: whenever the candidate's rim diameter differs from the OEM's, scoring
returns `safe = false` with score `0`, regardless of the other deltas (either
the diameter gate or the rim gate fires; both reject with score `0`). -/
theorem C3_rim_gate_rejects (oem alt : Tyre) (h : alt.rimIn ≠ oem.rimIn) :
    (scoreAlternative oem alt).safe = false ∧ (scoreAlternative oem alt).score = 0 := by
  by_cases hd : pctDiff (overallDiameterMm oem) (overallDiameterMm alt) > LIMITS.diameterPctMax
  · simp [scoreAlternative, hd]
  · simp [scoreAlternative, hd, h]

/-- Witness for C3: a one-inch rim reduction on the demo OEM size. -/
theorem C3_rim_gate_rejects_witness : ((19 : ℚ) ≠ 20)
    ∧ (scoreAlternative ⟨265, 30, 20⟩ ⟨265, 30, 19⟩).safe = false
    ∧ (scoreAlternative ⟨265, 30, 20⟩ ⟨265, 30, 19⟩).score = 0 :=
  ⟨by norm_num, C3_rim_gate_rejects ⟨265, 30, 20⟩ ⟨265, 30, 19⟩ (by norm_num)⟩

/-- C4: if the overall-diameter percentage difference exceeds
`LIMITS.diameterPctMax` (3.0), scoring returns exactly the rejection record
`safe = false`, `score = 0`, with the single reason citing the measured delta
and the limit — and this holds whatever the rim and width are, so the
diameter gate is checked before the rim and width gates. -/
theorem C4_diameter_gate_first (oem alt : Tyre)
    (h : pctDiff (overallDiameterMm oem) (overallDiameterMm alt) > LIMITS.diameterPctMax) :
    scoreAlternative oem alt =
      ⟨false, 0, [diaGateMsg (pctDiff (overallDiameterMm oem) (overallDiameterMm alt))]⟩ := by
  simp [scoreAlternative, h]

/-- Witness for C4: a candidate whose rim also differs still gets the
diameter-gate reason, exhibiting the gate order. -/
theorem C4_diameter_gate_first_witness :
    pctDiff (overallDiameterMm ⟨265, 30, 20⟩) (overallDiameterMm ⟨265, 30, 19⟩) >
      LIMITS.diameterPctMax ∧
    scoreAlternative ⟨265, 30, 20⟩ ⟨265, 30, 19⟩ =
      ⟨false, 0,
        [diaGateMsg (pctDiff (overallDiameterMm ⟨265, 30, 20⟩) (overallDiameterMm ⟨265, 30, 19⟩))]⟩ :=
  ⟨by decide, C4_diameter_gate_first _ _ (by decide)⟩

set_option maxHeartbeats 1000000 in
/-- C5: every returned entry came from a safe scoring with score at least
`LIMITS.minScoreShown` (65); the returned list is sorted by score descending;
for every score value the returned entries with that score appear in exactly
the pre-sort (candidate-generation) order — the stable tie-break; and an
empty result list is a possible (valid) outcome, e.g. for OEM `100/95 R10`. -/
theorem C5_result_assembly :
    (∀ oem : Tyre,
      (∀ e ∈ runSearchAlts oem, LIMITS.minScoreShown ≤ e.score ∧
        ∃ t : Tyre, e.size = formatTyreSize t ∧ (scoreAlternative oem t).safe = true ∧
          (scoreAlternative oem t).score = e.score)
      ∧ List.Sorted (fun x y : AltOut => y.score ≤ x.score) (runSearchAlts oem)
      ∧ ∀ s : ℚ, (runSearchAlts oem).filter (fun e => decide (e.score = s)) =
          ((keptAlts oem).map toAltOut).filter (fun e => decide (e.score = s)))
    ∧ runSearchAlts ⟨100, 95, 10⟩ = [] := by
  refine ⟨fun oem => ⟨?_, ?_, ?_⟩, by decide⟩
  · intro e he
    obtain ⟨y, hy, hsafe, hmin, rfl⟩ := mem_runSearchAlts_struct oem e he
    obtain ⟨hfmt, hsafe', hscore, _⟩ := mem_scoredAlts_struct oem y hy
    refine ⟨hmin, y.t, hfmt, by rw [← hsafe', hsafe], ?_⟩
    rw [← hscore]; rfl
  · have hs := List.sorted_insertionSort sortRel (keptAlts oem)
    exact List.Pairwise.map toAltOut (fun a b (h : b.score ≤ a.score) => h) hs
  · intro s
    show ((List.insertionSort sortRel (keptAlts oem)).map toAltOut).filter
        (fun e => decide (e.score = s)) = _
    rw [List.filter_map, List.filter_map,
      show ((fun e : AltOut => decide (e.score = s)) ∘ toAltOut) =
        (fun y : ScoredAlt => decide (y.score = s)) from rfl,
      filter_score_insertionSort]

set_option maxHeartbeats 1000000 in
/-- Witness for C5 at the demo OEM size (the first returned entry). -/
theorem C5_result_assembly_witness :
    ((runSearchAlts ⟨265, 30, 20⟩).headD default ∈ runSearchAlts ⟨265, 30, 20⟩)
    ∧ (LIMITS.minScoreShown ≤ ((runSearchAlts ⟨265, 30, 20⟩).headD default).score
      ∧ ∃ t : Tyre, ((runSearchAlts ⟨265, 30, 20⟩).headD default).size = formatTyreSize t
        ∧ (scoreAlternative ⟨265, 30, 20⟩ t).safe = true
        ∧ (scoreAlternative ⟨265, 30, 20⟩ t).score =
            ((runSearchAlts ⟨265, 30, 20⟩).headD default).score) :=
  ⟨by decide, (C5_result_assembly.1 ⟨265, 30, 20⟩).1 _ (by decide)⟩

/-- C6: for a gate-passing (safe) candidate the returned score is the weighted
formula of the three measured deltas, and that formula is monotonically
non-increasing in each single delta, holding the other two fixed. -/
theorem C6_score_monotone :
    (∀ oem alt : Tyre, (scoreAlternative oem alt).safe = true →
      (scoreAlternative oem alt).score =
        scoreFormula (pctDiff (overallDiameterMm oem) (overallDiameterMm alt))
          |alt.widthMm - oem.widthMm| |alt.aspect - oem.aspect|)
    ∧ (∀ d d' w a : ℚ, d ≤ d' → scoreFormula d' w a ≤ scoreFormula d w a)
    ∧ (∀ d w w' a : ℚ, w ≤ w' → scoreFormula d w' a ≤ scoreFormula d w a)
    ∧ (∀ d w a a' : ℚ, a ≤ a' → scoreFormula d w a' ≤ scoreFormula d w a) :=
  ⟨score_eq_formula, fun _ _ w a h => scoreFormula_anti₁ w a h,
   fun d _ _ a h => scoreFormula_anti₂ d a h, fun d w _ _ h => scoreFormula_anti₃ d w h⟩

/-- Witness for C6: all four conjuncts at concrete inputs. -/
theorem C6_score_monotone_witness :
    ((scoreAlternative ⟨265, 30, 20⟩ ⟨255, 35, 20⟩).safe = true
      ∧ (scoreAlternative ⟨265, 30, 20⟩ ⟨255, 35, 20⟩).score =
        scoreFormula (pctDiff (overallDiameterMm ⟨265, 30, 20⟩) (overallDiameterMm ⟨255, 35, 20⟩))
          |(255 : ℚ) - 265| |(35 : ℚ) - 30|)
    ∧ ((1 : ℚ) ≤ 2 ∧ scoreFormula 2 10 5 ≤ scoreFormula 1 10 5)
    ∧ ((10 : ℚ) ≤ 11 ∧ scoreFormula 1 11 5 ≤ scoreFormula 1 10 5)
    ∧ ((5 : ℚ) ≤ 6 ∧ scoreFormula 1 10 6 ≤ scoreFormula 1 10 5) :=
  ⟨⟨by decide, C6_score_monotone.1 ⟨265, 30, 20⟩ ⟨255, 35, 20⟩ (by decide)⟩,
   ⟨by norm_num, C6_score_monotone.2.1 1 2 10 5 (by norm_num)⟩,
   ⟨by norm_num, C6_score_monotone.2.2.1 1 10 11 5 (by norm_num)⟩,
   ⟨by norm_num, C6_score_monotone.2.2.2 1 10 5 6 (by norm_num)⟩⟩

/-- C7: for OEM `265/30 R20` and candidate `255/35 R20`, scoring passes all
three hard gates (`safe = true`), the overall diameters are `667` and `686.5`
per the formula `rim · 25.4 + 2 · width · (aspect / 100)`, the diameter
percentage delta equals `|686.5 − 667| / 667 · 100`, the width delta is
`10` mm and the aspect delta is `5`, and the three deltas appear in the
reasons. -/
theorem C7_demo_candidate_scored :
    (scoreAlternative ⟨265, 30, 20⟩ ⟨255, 35, 20⟩).safe = true
    ∧ overallDiameterMm ⟨265, 30, 20⟩ = 667
    ∧ overallDiameterMm ⟨255, 35, 20⟩ = 686.5
    ∧ overallDiameterMm ⟨255, 35, 20⟩ = 20 * 25.4 + 2 * (255 * (35 / 100))
    ∧ pctDiff (overallDiameterMm ⟨265, 30, 20⟩) (overallDiameterMm ⟨255, 35, 20⟩) =
        |(686.5 : ℚ) - 667| / 667 * 100
    ∧ |(255 : ℚ) - 265| = 10 ∧ |(35 : ℚ) - 30| = 5
    ∧ (scoreAlternative ⟨265, 30, 20⟩ ⟨255, 35, 20⟩).reasons =
        [diaMsg (pctDiff 667 686.5), widthMsg 10, aspectMsg 5] := by
  refine ⟨by decide, by decide, by decide, by decide, by decide, by decide, by decide, by decide⟩

/-- C8 (counterexample): for OEM `265/90 R24` and candidate `265/90 R25`
(within the diameter limit, rim differs) the reasons list is exactly
`["Rim size differs from OEM"]` — it does not contain the width delta (or the
other measured deltas), so the claim that the reasons always contain the
three measured deltas regardless of outcome is false on the code. -/
theorem C8_reasons_counterexample :
    (scoreAlternative ⟨265, 90, 24⟩ ⟨265, 90, 25⟩).reasons = [rimGateMsg]
    ∧ widthMsg |(265 : ℚ) - 265| ∉ (scoreAlternative ⟨265, 90, 24⟩ ⟨265, 90, 25⟩).reasons :=
  ⟨by decide, by decide⟩

/-- C8 (amended): when the candidate passes all gates (`safe = true`) the
reasons list is exactly the three measured deltas (diameter %, width mm,
aspect points); when a gate rejects (`safe = false`) the reasons list is the
single reason of the gate that fired. -/
theorem C8_reasons_amended (oem alt : Tyre) :
    ((scoreAlternative oem alt).safe = true →
      (scoreAlternative oem alt).reasons =
        [diaMsg (pctDiff (overallDiameterMm oem) (overallDiameterMm alt)),
         widthMsg |alt.widthMm - oem.widthMm|, aspectMsg |alt.aspect - oem.aspect|])
    ∧ ((scoreAlternative oem alt).safe = false → (scoreAlternative oem alt).reasons.length = 1) := by
  by_cases h1 : pctDiff (overallDiameterMm oem) (overallDiameterMm alt) > LIMITS.diameterPctMax
  · simp [scoreAlternative, h1]
  · by_cases h2 : alt.rimIn ≠ oem.rimIn
    · simp [scoreAlternative, h1, h2]
    · by_cases h3 : |alt.widthMm - oem.widthMm| > LIMITS.widthDeltaMaxMm
      · simp [scoreAlternative, h1, h2, h3]
      · simp [scoreAlternative, h1, h2, h3]

/-- Witness for the amended C8 at a gate-passing pair. -/
theorem C8_reasons_amended_witness :
    (scoreAlternative ⟨265, 30, 20⟩ ⟨255, 35, 20⟩).safe = true
    ∧ (scoreAlternative ⟨265, 30, 20⟩ ⟨255, 35, 20⟩).reasons =
        [diaMsg (pctDiff (overallDiameterMm ⟨265, 30, 20⟩) (overallDiameterMm ⟨255, 35, 20⟩)),
         widthMsg |(255 : ℚ) - 265|, aspectMsg |(35 : ℚ) - 30|] :=
  ⟨by decide, (C8_reasons_amended ⟨265, 30, 20⟩ ⟨255, 35, 20⟩).1 (by decide)⟩

/-- C9 (counterexample): the string `"1.5/30R20"` parses successfully to a
`TyreSize` with the non-integer width `3/2` (JavaScript accepts the decimal
literal and `String(1.5)` has length 3), so the claim that every parsed
`TyreSize` has integer fields is false on the code. -/
theorem C9_integer_fields_counterexample :
    parseTyreSize (str "1.5/30R20") = some ⟨3 / 2, 30, 20⟩
    ∧ ¬ ∃ z : ℤ, ((3 / 2 : ℚ) = (z : ℚ)) := by
  refine ⟨by decide, ?_⟩
  rintro ⟨z, hz⟩
  have := Rat.den_intCast z
  rw [← hz] at this
  norm_num at this

/-- C9 (amended): whenever the three numeric segments of the input are plain
(non-empty) digit runs, every field of the parsed `TyreSize` is a natural
number; integrality can only fail for decimal-point or signed notations. -/
theorem C9_integer_fields_amended (lw la lr : Str) (t : Tyre)
    (hw : lw ≠ []) (hwd : ∀ c ∈ lw, isDigitC c = true)
    (ha : la ≠ []) (had : ∀ c ∈ la, isDigitC c = true)
    (hr : lr ≠ []) (hrd : ∀ c ∈ lr, isDigitC c = true)
    (h : parseTyreSize (lw ++ '/' :: (la ++ 'R' :: lr)) = some t) :
    (∃ n : ℕ, t.widthMm = (n : ℚ)) ∧ (∃ n : ℕ, t.aspect = (n : ℚ)) ∧
      (∃ n : ℕ, t.rimIn = (n : ℚ)) := by
  have hnws : ∀ c ∈ lw ++ '/' :: (la ++ 'R' :: lr), isWs c = false := by
    intro c hc
    simp only [List.mem_append, List.mem_cons] at hc
    rcases hc with hc | rfl | hc | rfl | hc
    · exact (digit_facts (hwd c hc)).1
    · decide
    · exact (digit_facts (had c hc)).1
    · decide
    · exact (digit_facts (hrd c hc)).1
  have hupper : ∀ c ∈ lw ++ '/' :: (la ++ 'R' :: lr), toUpperC c = c := by
    intro c hc
    simp only [List.mem_append, List.mem_cons] at hc
    rcases hc with hc | rfl | hc | rfl | hc
    · exact (digit_facts (hwd c hc)).2.1
    · decide
    · exact (digit_facts (had c hc)).2.1
    · decide
    · exact (digit_facts (hrd c hc)).2.1
  have hfilt : ∀ c ∈ lw ++ '/' :: (la ++ 'R' :: lr), decide (c ≠ ' ') = true := by
    intro c hc
    simp only [List.mem_append, List.mem_cons] at hc
    rcases hc with hc | rfl | hc | rfl | hc
    · exact decide_eq_true (digit_facts (hwd c hc)).2.2.1
    · decide
    · exact decide_eq_true (digit_facts (had c hc)).2.2.1
    · decide
    · exact decide_eq_true (digit_facts (hrd c hc)).2.2.1
  have hnorm : normalise (lw ++ '/' :: (la ++ 'R' :: lr)) = lw ++ '/' :: (la ++ 'R' :: lr) := by
    simp only [normalise, trimWs_eq_self_all hnws, map_id_of_mem hupper]
    exact List.filter_eq_self.mpr hfilt
  have hsplit1 : (lw ++ '/' :: (la ++ 'R' :: lr)).splitOn 'R' = [lw ++ '/' :: la, lr] := by
    have hassoc : lw ++ '/' :: (la ++ 'R' :: lr) = (lw ++ '/' :: la) ++ 'R' :: lr := by simp
    rw [hassoc]
    refine splitOn_sandwich ?_ (notR_of_digits hrd)
    simp only [List.mem_append, List.mem_cons, not_or]
    exact ⟨notR_of_digits hwd, by decide, notR_of_digits had⟩
  have hsplit2 : (lw ++ '/' :: la).splitOn '/' = [lw, la] :=
    splitOn_sandwich (notSlash_of_digits hwd) (notSlash_of_digits had)
  simp only [parseTyreSize, hnorm, hsplit1, hsplit2, jsNumber_digits hw hwd,
    jsNumber_digits ha had, jsNumber_digits hr hrd] at h
  split_ifs at h with e1 e2 e3 <;>
    first
      | exact Option.noConfusion h
      | (obtain rfl : Tyre.mk ((digitsToNat lw : ℕ) : ℚ) ((digitsToNat la : ℕ) : ℚ)
            ((digitsToNat lr : ℕ) : ℚ) = t := Option.some.inj h
         exact ⟨⟨digitsToNat lw, rfl⟩, ⟨digitsToNat la, rfl⟩, ⟨digitsToNat lr, rfl⟩⟩)

/-- Witness for the amended C9 on the digit segments of the demo size. -/
theorem C9_integer_fields_amended_witness :
    ((str "265" ≠ []) ∧ parseTyreSize (str "265" ++ '/' :: (str "30" ++ 'R' :: str "20")) =
      some ⟨265, 30, 20⟩)
    ∧ (∃ n : ℕ, (⟨265, 30, 20⟩ : Tyre).widthMm = (n : ℚ))
    ∧ (∃ n : ℕ, (⟨265, 30, 20⟩ : Tyre).aspect = (n : ℚ))
    ∧ (∃ n : ℕ, (⟨265, 30, 20⟩ : Tyre).rimIn = (n : ℚ)) :=
  ⟨⟨by decide, by decide⟩,
   C9_integer_fields_amended (str "265") (str "30") (str "20") ⟨265, 30, 20⟩ (by decide)
     (by decide) (by decide) (by decide) (by decide) (by decide) (by decide)⟩

/-- C10: candidate generation never varies the rim, and every entry of the
returned result list comes from a candidate tyre with the OEM's rim diameter,
an overall-diameter percentage delta of at most `LIMITS.diameterPctMax` (3.0),
and an absolute width delta of at most `LIMITS.widthDeltaMaxMm` (25 mm). -/
theorem C10_result_invariants (oem : Tyre) :
    (∀ c ∈ genCandidates oem, c.rimIn = oem.rimIn)
    ∧ ∀ e ∈ runSearchAlts oem, ∃ t : Tyre,
        e.size = formatTyreSize t ∧ t.rimIn = oem.rimIn
        ∧ pctDiff (overallDiameterMm oem) (overallDiameterMm t) ≤ LIMITS.diameterPctMax
        ∧ |t.widthMm - oem.widthMm| ≤ LIMITS.widthDeltaMaxMm := by
  constructor
  · intro c hc
    simp only [genCandidates, genWidths, genAspects, List.map_cons, List.map_nil,
      List.mem_append, List.mem_cons, List.mem_singleton, List.not_mem_nil, or_false] at hc
    rcases hc with ((rfl | rfl | rfl | rfl) | rfl | rfl) | rfl | rfl <;> rfl
  · intro e he
    obtain ⟨y, hy, hsafe, _, rfl⟩ := mem_runSearchAlts_struct oem e he
    obtain ⟨hfmt, hsafe', _, _⟩ := mem_scoredAlts_struct oem y hy
    have hgates := safe_gates oem y.t (by rw [← hsafe', hsafe])
    exact ⟨y.t, hfmt, hgates.2.1, hgates.1, hgates.2.2⟩

set_option maxHeartbeats 1000000 in
/-- Witness for C10 at the demo OEM size (the first returned entry). -/
theorem C10_result_invariants_witness :
    ((runSearchAlts ⟨265, 30, 20⟩).headD default ∈ runSearchAlts ⟨265, 30, 20⟩)
    ∧ ∃ t : Tyre, ((runSearchAlts ⟨265, 30, 20⟩).headD default).size = formatTyreSize t
        ∧ t.rimIn = (⟨265, 30, 20⟩ : Tyre).rimIn
        ∧ pctDiff (overallDiameterMm ⟨265, 30, 20⟩) (overallDiameterMm t) ≤ LIMITS.diameterPctMax
        ∧ |t.widthMm - (⟨265, 30, 20⟩ : Tyre).widthMm| ≤ LIMITS.widthDeltaMaxMm :=
  ⟨by decide, (C10_result_invariants ⟨265, 30, 20⟩).2 _ (by decide)⟩

end TyreWise
